import Mathlib

/-!
Verification of the Ebbinghaus vocabulary scheduler, review-session state
machine, catalog merge and persistence gateway.

Conventions of the embedding:
* Timestamps are `Int` epoch milliseconds.  The JavaScript environment's
  local timezone is modelled as UTC, so `getStartOfDay` floors to a
  multiple of `DAY_MS`; every scheduling property below is invariant under
  the choice of a fixed timezone offset.
* `Date.now()` and the current date string are passed explicitly as
  parameters (`now : Int`, `today : String`); the functions themselves are
  pure, mirroring the source.
* The TypeScript type `ReviewStage = 0|1|..|6` is embedded as `Nat`;
  claims that depend on the range carry it as a hypothesis.
-/

namespace Ebbinghaus

/-- Milliseconds in a day (`DAY_MS` in scheduler.ts). -/
def DAY_MS : Int := 24 * 60 * 60 * 1000

/-- `getStartOfDay` from scheduler.ts: midnight of the day containing the
timestamp (timezone modelled as UTC, so: floor to a multiple of `DAY_MS`). -/
def getStartOfDay (timestamp : Int) : Int :=
  (Int.fdiv timestamp DAY_MS) * DAY_MS

/-- `getEndOfDay` from scheduler.ts: 23:59:59.999 of the same day. -/
def getEndOfDay (timestamp : Int) : Int :=
  getStartOfDay timestamp + DAY_MS - 1

/-- Days between 1970-01-01 and the civil date y-m-d (proleptic Gregorian);
implements the standard days-from-civil computation, which is what the JS
`Date` constructor performs for a local/UTC midnight. -/
def daysFromCivil (y m d : Int) : Int :=
  let yy := if m ≤ 2 then y - 1 else y
  let era := Int.fdiv yy 400
  let yoe := yy - era * 400
  let mp := Int.emod (m + 9) 12
  let doy := Int.fdiv (153 * mp + 2) 5 + d - 1
  let doe := yoe * 365 + Int.fdiv yoe 4 - Int.fdiv yoe 100 + doy
  era * 146097 + doe - 719468

/-- `dateStr.split('-')` on the character list of the string. -/
def splitOnChar (sep : Char) : List Char → List (List Char)
  | [] => [[]]
  | c :: rest =>
      let r := splitOnChar sep rest
      if c = sep then [] :: r
      else
        match r with
        | [] => [[c]]
        | g :: gs => (c :: g) :: gs

/-- An ASCII decimal digit. -/
def isAsciiDigit (c : Char) : Bool :=
  decide ('0' ≤ c) && decide (c ≤ '9')

/-- Value of a digit string. -/
def digitsVal (cs : List Char) : Nat :=
  cs.foldl (fun acc c => acc * 10 + (c.toNat - 48)) 0

/-- JS `Number(s)` on the components a date split produces: the value of a
digit string ("" gives 0, as in JS).  A non-numeric component is NaN in
the source and has no integer counterpart; the model returns 0 there, a
case no claim exercises. -/
def jsNumber (cs : List Char) : Int :=
  if cs.all isAsciiDigit then (digitsVal cs : Int) else 0

/-- `parseDateString` from scheduler.ts: "YYYY-MM-DD" to the timestamp of
that day's midnight (`new Date(year, month - 1, day).getTime()`, timezone
modelled as UTC).  A string that does not split into three components has
no meaningful timestamp in the source (an invalid `Date`); the model
returns 0 there, a case no claim exercises. -/
def parseDateString (dateStr : String) : Int :=
  match (splitOnChar '-' dateStr.data).map jsNumber with
  | [year, month, day] => daysFromCivil year month day * DAY_MS
  | _ => 0

/-- `MemoryStatus` from types.ts. -/
inductive MemoryStatus where
  | new
  | learning
  | mastered
deriving Repr, DecidableEq

/-- `REVIEW_INTERVALS` from types.ts: stage → days.  The TypeScript record
is keyed by `ReviewStage = 0..6`; stages outside that range do not occur
at that type and get a junk value here. -/
def REVIEW_INTERVALS (stage : Nat) : Int :=
  match stage with
  | 0 => 1
  | 1 => 1
  | 2 => 2
  | 3 => 4
  | 4 => 7
  | 5 => 15
  | 6 => 30
  | _ => 0

/-- `RawWord` from types.ts. -/
structure RawWord where
  word : String
  meaning : String
  example_ : Option String
deriving Repr, DecidableEq

/-- `WordEntry` from types.ts (catalog fields merged with progress). -/
structure WordEntry where
  id : String
  word : String
  meaning : String
  example_ : Option String
  addedDate : String
  reviewStage : Nat
  nextReviewAt : Int
  memoryStatus : MemoryStatus
  lastReviewedAt : Option Int
deriving Repr, DecidableEq

/-- `WordProgress` from types.ts (the persisted per-word record). -/
structure WordProgress where
  id : String
  reviewStage : Nat
  nextReviewAt : Int
  memoryStatus : MemoryStatus
  lastReviewedAt : Option Int
deriving Repr, DecidableEq

namespace SchedulerService

/-- `SchedulerService.calculateNextReview`. -/
def calculateNextReview (currentStage : Nat) (baseTime : Int) : Int :=
  getStartOfDay baseTime + REVIEW_INTERVALS currentStage * DAY_MS

/-- `SchedulerService.handleRemember` (with `Date.now()` passed as `now`). -/
def handleRemember (word : WordEntry) (now : Int) : WordProgress :=
  if word.reviewStage = 6 then
    { id := word.id
      reviewStage := 6
      nextReviewAt := word.nextReviewAt
      memoryStatus := .mastered
      lastReviewedAt := some now }
  else
    let nextStage := word.reviewStage + 1
    { id := word.id
      reviewStage := nextStage
      nextReviewAt := calculateNextReview nextStage now
      memoryStatus := .learning
      lastReviewedAt := some now }

/-- `SchedulerService.handleForget` (with `Date.now()` passed as `now`). -/
def handleForget (word : WordEntry) (now : Int) : WordProgress :=
  { id := word.id
    reviewStage := 1
    nextReviewAt := calculateNextReview 1 now
    memoryStatus := .learning
    lastReviewedAt := some now }

/-- The priority score computed inside `sortByUrgency`'s comparator:
0 = overdue, 1 = due today, 2 = future. -/
def getPriority (todayStart todayEnd : Int) (word : WordEntry) : Nat :=
  if word.nextReviewAt < todayStart then 0
  else if word.nextReviewAt ≤ todayEnd then 1
  else 2

/-- The JS comparator of `sortByUrgency`: priority difference first,
`nextReviewAt` difference to break ties. -/
def urgencyCmp (now : Int) (a b : WordEntry) : Int :=
  let todayStart := getStartOfDay now
  let todayEnd := getEndOfDay now
  let priorityA := getPriority todayStart todayEnd a
  let priorityB := getPriority todayStart todayEnd b
  if priorityA ≠ priorityB then (priorityA : Int) - (priorityB : Int)
  else a.nextReviewAt - b.nextReviewAt

/-- `SchedulerService.sortByUrgency`: `[...words].sort(comparator)`.
ECMAScript `Array.prototype.sort` with a consistent comparator is a stable
sort into comparator order, embedded as the (stable) `List.mergeSort` with
`le a b ↔ comparator a b ≤ 0`. -/
def sortByUrgency (now : Int) (words : List WordEntry) : List WordEntry :=
  words.mergeSort (fun a b => urgencyCmp now a b ≤ 0)

/-- `SchedulerService.calculateInitialReview`: start of the day the word
was added, so it is reviewable on its introduction day itself. -/
def calculateInitialReview (addedDate : String) : Int :=
  getStartOfDay (parseDateString addedDate)

end SchedulerService

/-- `generateWordId` from wordLoader.ts: `` `${date}_${word}` ``. -/
def generateWordId (date word : String) : String :=
  date ++ "_" ++ word

namespace WordLoaderService

/-- `WordLoaderService.createWordEntry`: a fresh entry with no progress
record — stage 0, status `new`, first review on the introduction day. -/
def createWordEntry (rawWord : RawWord) (addedDate : String) : WordEntry :=
  { id := generateWordId addedDate rawWord.word
    word := rawWord.word
    meaning := rawWord.meaning
    example_ := rawWord.example_
    addedDate := addedDate
    reviewStage := 0
    nextReviewAt := SchedulerService.calculateInitialReview addedDate
    memoryStatus := .new
    lastReviewedAt := none }

/-- Lookup in the `Map` that `mergeWithProgress` builds from the progress
list: `Map.set` in list order, so a later record with the same id
overwrites an earlier one (last wins). -/
def findProgress (progress : List WordProgress) (id : String) : Option WordProgress :=
  progress.foldl (fun acc p => if p.id = id then some p else acc) none

/-- `WordLoaderService.mergeWithProgress`: combine catalog words (each
tagged with its introduction date) with persisted progress records. -/
def mergeWithProgress (words : List (RawWord × String)) (progress : List WordProgress) :
    List WordEntry :=
  words.map (fun wd =>
    let id := generateWordId wd.2 wd.1.word
    match findProgress progress id with
    | some existingProgress =>
        { id := id
          word := wd.1.word
          meaning := wd.1.meaning
          example_ := wd.1.example_
          addedDate := wd.2
          reviewStage := existingProgress.reviewStage
          nextReviewAt := existingProgress.nextReviewAt
          memoryStatus := existingProgress.memoryStatus
          lastReviewedAt := existingProgress.lastReviewedAt }
    | none => createWordEntry wd.1 wd.2)

end WordLoaderService

/-!
## Persistence gateway

The stored value is modelled after `JSON.parse`: a JSON value tree.
`none : Option Json` stands for every way the raw string fails to reach
validation in `ProgressService.load` — storage unavailable, key absent,
empty string, or a `JSON.parse` exception (all caught and turned into
`null` by the source).
-/

/-- A JSON value as produced by `JSON.parse` (numbers restricted to the
integers, which is all the snapshot schema uses). -/
inductive Json where
  | null
  | bool (b : Bool)
  | num (n : Int)
  | str (s : String)
  | arr (items : List Json)
  | obj (fields : List (String × Json))

/-- JS property read `j[k]`: `none` is `undefined`.  Duplicate keys read
last-wins, matching `JSON.parse`. -/
def Json.getField (j : Json) (k : String) : Option Json :=
  match j with
  | .obj fields => fields.foldl (fun acc f => if f.1 = k then some f.2 else acc) none
  | _ => none

/-- JS property write `j[k] = v` (also the override step of an object
spread): replaces the value under an existing key, else appends. -/
def Json.setField (j : Json) (k : String) (v : Json) : Json :=
  match j with
  | .obj fields =>
      if fields.any (fun f => f.1 = k) then
        .obj (fields.map (fun f => if f.1 = k then (f.1, v) else f))
      else
        .obj (fields ++ [(k, v)])
  | _ => j

/-- JS `delete j[k]`. -/
def Json.deleteField (j : Json) (k : String) : Json :=
  match j with
  | .obj fields => .obj (fields.filter (fun f => ¬ f.1 = k))
  | _ => j

/-- The JS test `x && typeof x === 'object'`: true exactly for non-null
objects and arrays. -/
def Json.isTruthyObject (j : Json) : Bool :=
  match j with
  | .obj _ => true
  | .arr _ => true
  | _ => false

/-- `typeof x === 'number'` on a possibly-undefined property. -/
def jsIsNumber (x : Option Json) : Bool :=
  match x with
  | some (.num _) => true
  | _ => false

/-- `typeof x === 'string'` on a possibly-undefined property. -/
def jsIsString (x : Option Json) : Bool :=
  match x with
  | some (.str _) => true
  | _ => false

/-- `Array.isArray(x)` on a possibly-undefined property. -/
def jsIsArray (x : Option Json) : Bool :=
  match x with
  | some (.arr _) => true
  | _ => false

/-- `x && typeof x === 'object'` on a possibly-undefined property. -/
def jsIsTruthyObject (x : Option Json) : Bool :=
  match x with
  | some j => j.isTruthyObject
  | none => false

/-- `isValidProgressData` from progress.ts: the sequential structural
checks guarding `load`. -/
def isValidProgressData (data : Json) : Bool :=
  if ¬ data.isTruthyObject then false
  else if ¬ jsIsNumber (data.getField "version") then false
  else if ¬ jsIsArray (data.getField "progress") then false
  else if ¬ jsIsTruthyObject (data.getField "stats") then false
  else
    let stats := (data.getField "stats").getD .null
    if ¬ jsIsNumber (stats.getField "streakDays") then false
    else if ¬ jsIsString (stats.getField "lastStudyDate") then false
    else if ¬ jsIsTruthyObject (stats.getField "dailyReviews") then false
    else if ¬ jsIsTruthyObject (data.getField "settings") then false
    else true

namespace ProgressService

/-- `ProgressService.load`: the stored value (post-parse) or `none`, with
validation deciding between the parsed snapshot and `null`. -/
def load (stored : Option Json) : Option Json :=
  match stored with
  | none => none
  | some data => if isValidProgressData data then some data else none

/-- `ProgressService.exportData`: serialize the loaded snapshot with the
transport metadata `exportedAt`/`exportVersion` spread on top
(`CURRENT_VERSION = 1`). -/
def exportData (stored : Option Json) (now : Int) : Option Json :=
  match load stored with
  | none => none
  | some data => some ((data.setField "exportedAt" (.num now)).setField "exportVersion" (.num 1))

/-- `ProgressService.importData`: parse (a `none` input is a parse
failure, caught by the source), delete the transport metadata, re-validate
with the same check as `load`, and commit only if valid; otherwise the
stored state is untouched.  Returns (new stored state, success flag). -/
def importData (stored : Option Json) (input : Option Json) : Option Json × Bool :=
  match input with
  | none => (stored, false)
  | some parsed =>
      let data := (parsed.deleteField "exportedAt").deleteField "exportVersion"
      if isValidProgressData data then (some data, true) else (stored, false)

end ProgressService

/-- The memoryStatus enum values admitted by the snapshot schema (§6). -/
def isMemoryStatusString (s : String) : Bool :=
  s = "new" || s = "learning" || s = "mastered"

/-- A progress-list element as the snapshot schema describes it
(`WordProgress` in types.ts): an object with a string `id`, a numeric
`reviewStage` in 0..6, a numeric `nextReviewAt`, an enum `memoryStatus`,
and an optional numeric `lastReviewedAt`. -/
def schemaValidProgressRecord (j : Json) : Bool :=
  match j with
  | .obj _ =>
      jsIsString (j.getField "id") &&
      (match j.getField "reviewStage" with
       | some (.num n) => decide (0 ≤ n ∧ n ≤ 6)
       | _ => false) &&
      jsIsNumber (j.getField "nextReviewAt") &&
      (match j.getField "memoryStatus" with
       | some (.str s) => isMemoryStatusString s
       | _ => false) &&
      (match j.getField "lastReviewedAt" with
       | none => true
       | some (.num _) => true
       | _ => false)
  | _ => false

/-- Full-schema validity of a snapshot in the sense of the specification:
every field of the §6 snapshot shape checked recursively, including each
element of the `progress` array (field names as in types.ts).  This is the
property the spec asserts of every value `load` returns; compared below
against the shallow `isValidProgressData` the code actually runs. -/
def schemaValidSnapshot (data : Json) : Bool :=
  match data with
  | .obj _ =>
      jsIsNumber (data.getField "version") &&
      (match data.getField "progress" with
       | some (.arr items) => items.all schemaValidProgressRecord
       | _ => false) &&
      (match data.getField "stats" with
       | some stats =>
           jsIsNumber (stats.getField "streakDays") &&
           jsIsString (stats.getField "lastStudyDate") &&
           (match stats.getField "dailyReviews" with
            | some (.obj entries) => entries.all (fun e => jsIsNumber (some e.2))
            | _ => false)
       | none => false) &&
      (match data.getField "settings" with
       | some settings =>
           (match settings.getField "voiceType" with
            | some (.str s) => s = "en-US" || s = "en-GB"
            | _ => false)
       | none => false)
  | _ => false

/-!
## Review session store (stores/progress.ts)

The Pinia store's reactive refs become a state record; each action is a
state transformer.  `Date.now()` and today's date string are passed in
(`now`, `today`).  `saveProgress` writes the snapshot to the persistence
gateway and does not change any store state, so it is not part of the
state transition.
-/

/-- The reactive state of the progress store. -/
structure ProgressStoreState where
  progressList : List WordProgress
  streakDays : Int
  lastStudyDate : String
  dailyReviews : List (String × Int)
  reviewQueue : List WordEntry
  currentReviewIndex : Nat
  todayReviewedCount : Int
deriving Repr, DecidableEq

namespace ProgressStore

/-- The `currentWord` getter: the queue entry under the cursor, or `null`
when the queue is empty or the cursor has run past the end. -/
def currentWord (st : ProgressStoreState) : Option WordEntry :=
  if st.reviewQueue.length = 0 then none
  else if st.reviewQueue.length ≤ st.currentReviewIndex then none
  else st.reviewQueue[st.currentReviewIndex]?

/-- The `isReviewComplete` getter. -/
def isReviewComplete (st : ProgressStoreState) : Bool :=
  decide (0 < st.reviewQueue.length) && decide (st.reviewQueue.length ≤ st.currentReviewIndex)

/-- `startReview`: rebuild the queue by urgency and reset the cursor. -/
def startReview (st : ProgressStoreState) (now : Int) (words : List WordEntry) :
    ProgressStoreState :=
  { st with
    reviewQueue := SchedulerService.sortByUrgency now words
    currentReviewIndex := 0 }

/-- `updateProgressList`: replace the first record with a matching id,
else push the new record. -/
def updateProgressList (pl : List WordProgress) (progress : WordProgress) :
    List WordProgress :=
  match pl with
  | [] => [progress]
  | p :: rest =>
      if p.id = progress.id then progress :: rest
      else p :: updateProgressList rest progress

/-- The `dailyReviews[today] = (dailyReviews[today] || 0) + 1` step:
increment today's counter in the date→count record. -/
def bumpDailyReviews (m : List (String × Int)) (today : String) : List (String × Int) :=
  match m with
  | [] => [(today, 1)]
  | e :: rest =>
      if e.1 = today then (e.1, e.2 + 1) :: rest
      else e :: bumpDailyReviews rest today

/-- Read a date's counter (`dailyReviews[today] || 0`). -/
def lookupDailyReviews (m : List (String × Int)) (today : String) : Int :=
  (m.foldl (fun acc e => if e.1 = today then some e.2 else acc) none).getD 0

/-- `updateStreakDays` from stores/progress.ts, as a function of the two
streak fields: first-ever study seeds the streak at 1; a second review on
the same day changes nothing; otherwise the whole-day difference decides
between increment (exactly one day later) and reset to 1.  Both date
strings are parsed to midnight timestamps (`new Date(dateString)`,
timezone modelled as UTC; `Math.floor` of the day ratio is `Int.fdiv`). -/
def updateStreakDays (streakDays : Int) (lastStudyDate today : String) : Int × String :=
  if lastStudyDate = "" then (1, today)
  else if lastStudyDate = today then (streakDays, lastStudyDate)
  else
    let diffDays := Int.fdiv (parseDateString today - parseDateString lastStudyDate) DAY_MS
    if diffDays = 1 then (streakDays + 1, today) else (1, today)

/-- `updateStats`: bump today's review counter, refresh
`todayReviewedCount`, and update the streak. -/
def updateStats (st : ProgressStoreState) (today : String) : ProgressStoreState :=
  let dr := bumpDailyReviews st.dailyReviews today
  let sd := updateStreakDays st.streakDays st.lastStudyDate today
  { st with
    dailyReviews := dr
    todayReviewedCount := lookupDailyReviews dr today
    streakDays := sd.1
    lastStudyDate := sd.2 }

/-- `handleRemember` (store action): grade the current word as remembered
— no-op returning `null` when no current word; otherwise update the
progress record, the stats, and advance the cursor. -/
def handleRemember (st : ProgressStoreState) (now : Int) (today : String) :
    Option WordProgress × ProgressStoreState :=
  match currentWord st with
  | none => (none, st)
  | some word =>
      let newProgress := SchedulerService.handleRemember word now
      let st1 := { st with progressList := updateProgressList st.progressList newProgress }
      let st2 := updateStats st1 today
      let st3 := { st2 with currentReviewIndex := st2.currentReviewIndex + 1 }
      (some newProgress, st3)

/-- The refreshed copy of a forgotten word pushed back onto the queue,
carrying the new progress fields. -/
def refreshedWordEntry (word : WordEntry) (p : WordProgress) : WordEntry :=
  { word with
    reviewStage := p.reviewStage
    nextReviewAt := p.nextReviewAt
    memoryStatus := p.memoryStatus
    lastReviewedAt := p.lastReviewedAt }

/-- `handleForget` (store action): grade the current word as forgotten —
no-op returning `null` when no current word; otherwise update the progress
record and stats, push the refreshed copy onto the tail of the queue, and
advance the cursor. -/
def handleForget (st : ProgressStoreState) (now : Int) (today : String) :
    Option WordProgress × ProgressStoreState :=
  match currentWord st with
  | none => (none, st)
  | some word =>
      let newProgress := SchedulerService.handleForget word now
      let st1 := { st with progressList := updateProgressList st.progressList newProgress }
      let st2 := updateStats st1 today
      let st3 := { st2 with
        reviewQueue := st2.reviewQueue ++ [refreshedWordEntry word newProgress]
        currentReviewIndex := st2.currentReviewIndex + 1 }
      (some newProgress, st3)

end ProgressStore

/-!
## Concrete fixtures

Sample entries used to instantiate the theorems on concrete inputs.
With base instant `10 * DAY_MS + 7200000` (02:00 on epoch day 10), the
day runs from `864000000` to `950399999`.
-/

/-- An entry due yesterday (epoch day 9) relative to day 10. -/
def wYesterday : WordEntry :=
  { id := "2026-01-01_alpha", word := "alpha", meaning := "a", example_ := none
    addedDate := "2026-01-01", reviewStage := 2, nextReviewAt := 777600000
    memoryStatus := .learning, lastReviewedAt := none }

/-- An entry due today (epoch day 10). -/
def wToday : WordEntry :=
  { id := "2026-01-02_beta", word := "beta", meaning := "b", example_ := none
    addedDate := "2026-01-02", reviewStage := 1, nextReviewAt := 870000000
    memoryStatus := .learning, lastReviewedAt := none }

/-- An entry due tomorrow (epoch day 11). -/
def wTomorrow : WordEntry :=
  { id := "2026-01-03_gamma", word := "gamma", meaning := "c", example_ := none
    addedDate := "2026-01-03", reviewStage := 3, nextReviewAt := 950400000
    memoryStatus := .new, lastReviewedAt := none }

/-- First of two entries that compare equal under the urgency comparator. -/
def wTieOne : WordEntry :=
  { id := "2026-01-04_delta", word := "delta", meaning := "d", example_ := none
    addedDate := "2026-01-04", reviewStage := 1, nextReviewAt := 870000000
    memoryStatus := .learning, lastReviewedAt := none }

/-- Second of two entries that compare equal under the urgency comparator. -/
def wTieTwo : WordEntry :=
  { id := "2026-01-05_epsilon", word := "epsilon", meaning := "e", example_ := none
    addedDate := "2026-01-05", reviewStage := 4, nextReviewAt := 870000000
    memoryStatus := .learning, lastReviewedAt := none }

/-- First entry of the forget-twice session scenario (overdue on day 10). -/
def wForgetA : WordEntry :=
  { id := "2026-01-06_zeta", word := "zeta", meaning := "z", example_ := none
    addedDate := "2026-01-06", reviewStage := 2, nextReviewAt := 777600000
    memoryStatus := .learning, lastReviewedAt := none }

/-- Second entry of the forget-twice session scenario (overdue on day 10,
due just after the first). -/
def wForgetB : WordEntry :=
  { id := "2026-01-07_eta", word := "eta", meaning := "h", example_ := none
    addedDate := "2026-01-07", reviewStage := 3, nextReviewAt := 777600001
    memoryStatus := .learning, lastReviewedAt := none }

/-- Session scenario: start a review of [wForgetA, wForgetB] on a blank
store at 02:00 of epoch day 10. -/
def sessionS0 : ProgressStoreState :=
  ProgressStore.startReview ⟨[], 0, "", [], [], 0, 0⟩ 871200000 [wForgetA, wForgetB]

/-- Session scenario after grading forget on the first entry. -/
def sessionS1 : ProgressStoreState :=
  (ProgressStore.handleForget sessionS0 871200000 "2026-01-10").2

/-- Session scenario after grading forget on both original entries. -/
def sessionS2 : ProgressStoreState :=
  (ProgressStore.handleForget sessionS1 871200000 "2026-01-10").2

/-- Session scenario after additionally remembering the first re-queued
copy. -/
def sessionS3 : ProgressStoreState :=
  (ProgressStore.handleRemember sessionS2 871200000 "2026-01-10").2

/-- Session scenario after remembering both re-queued copies. -/
def sessionS4 : ProgressStoreState :=
  (ProgressStore.handleRemember sessionS3 871200000 "2026-01-10").2

/-- A stored snapshot that passes the code's top-level validation although
its progress array contains a bare number, which matches no point of the
snapshot schema. -/
def cexSnapshot : Json :=
  .obj [("version", .num 1),
        ("progress", .arr [.num 42]),
        ("stats", .obj [("streakDays", .num 0), ("lastStudyDate", .str ""),
                        ("dailyReviews", .obj [])]),
        ("settings", .obj [("voiceType", .str "en-US")])]

/-- A valid stored snapshot used to exercise the export/import
round trip. -/
def vSnap : Json :=
  .obj [("version", .num 1),
        ("progress", .arr [.obj [("id", .str "2026-01-10_apple"), ("reviewStage", .num 2),
                                 ("nextReviewAt", .num 1768003200000),
                                 ("memoryStatus", .str "learning")]]),
        ("stats", .obj [("streakDays", .num 3), ("lastStudyDate", .str "2026-01-09"),
                        ("dailyReviews", .obj [("2026-01-09", .num 4)])]),
        ("settings", .obj [("voiceType", .str "en-US")])]

/-!
## Theorems
-/

/-- Every list element paired with the image list of a map is the image of
its partner. -/
theorem mem_zip_map {α β : Type} (f : α → β) :
    ∀ (l : List α) (x : α) (y : β), (x, y) ∈ l.zip (l.map f) → y = f x := by
  intro l
  induction l with
  | nil => intro x y h; simp at h
  | cons a l ih =>
      intro x y h
      simp only [List.map_cons, List.zip_cons_cons, List.mem_cons, Prod.mk.injEq] at h
      rcases h with ⟨rfl, rfl⟩ | h
      · rfl
      · exact ih x y h

/-- Claim C2: for a word at stage s with 0 ≤ s ≤ 5, the remember
transition yields stage s+1, nextReviewAt = startOfDay(now) +
interval[s+1] days, and status learning; at stage 6 it yields stage 6,
status mastered and an unchanged nextReviewAt; in both cases
lastReviewedAt is set to the current time. -/
theorem remember_stage_transition (word : WordEntry) (now : Int) :
    (word.reviewStage ≤ 5 →
      SchedulerService.handleRemember word now =
        { id := word.id
          reviewStage := word.reviewStage + 1
          nextReviewAt := getStartOfDay now + REVIEW_INTERVALS (word.reviewStage + 1) * DAY_MS
          memoryStatus := .learning
          lastReviewedAt := some now }) ∧
    (word.reviewStage = 6 →
      SchedulerService.handleRemember word now =
        { id := word.id
          reviewStage := 6
          nextReviewAt := word.nextReviewAt
          memoryStatus := .mastered
          lastReviewedAt := some now }) := by
  constructor
  · intro h
    have h6 : ¬ word.reviewStage = 6 := by omega
    simp [SchedulerService.handleRemember, SchedulerService.calculateNextReview, h6]
  · intro h
    simp [SchedulerService.handleRemember, h]

/-- Witness for claim C2 at stage 2 and at stage 6 (now = 5000, so
startOfDay(now) = 0 and stage 3's interval of 4 days gives 345600000). -/
theorem remember_stage_transition_witness :
    SchedulerService.handleRemember
      { id := "2026-01-10_apple", word := "apple", meaning := "fruit", example_ := none
        addedDate := "2026-01-10", reviewStage := 2, nextReviewAt := 0
        memoryStatus := .learning, lastReviewedAt := none } 5000 =
      { id := "2026-01-10_apple", reviewStage := 3, nextReviewAt := 345600000
        memoryStatus := .learning, lastReviewedAt := some 5000 } ∧
    SchedulerService.handleRemember
      { id := "2026-01-10_apple", word := "apple", meaning := "fruit", example_ := none
        addedDate := "2026-01-10", reviewStage := 6, nextReviewAt := 77
        memoryStatus := .learning, lastReviewedAt := none } 5000 =
      { id := "2026-01-10_apple", reviewStage := 6, nextReviewAt := 77
        memoryStatus := .mastered, lastReviewedAt := some 5000 } := by
  constructor
  · exact ((remember_stage_transition _ 5000).1 (by decide)).trans (by decide)
  · exact ((remember_stage_transition _ 5000).2 (by decide)).trans (by decide)

/-- Claim C3: the forget transition resets any word — whatever its stage
(0..6) or memory status — to stage 1, with nextReviewAt =
startOfDay(now) + interval[1] days (interval[1] being one day) and status
learning. -/
theorem forget_resets_to_stage_one (word : WordEntry) (now : Int) :
    SchedulerService.handleForget word now =
      { id := word.id
        reviewStage := 1
        nextReviewAt := getStartOfDay now + REVIEW_INTERVALS 1 * DAY_MS
        memoryStatus := .learning
        lastReviewedAt := some now } ∧
    REVIEW_INTERVALS 1 = 1 :=
  ⟨rfl, rfl⟩

/-- Claim C4: the catalog/progress merge is a pure pointwise function: an
entry whose id (composite of introduction date and word text) has a
progress record takes stage, nextReviewAt, memoryStatus and
lastReviewedAt from that record; every other entry gets stage 0, status
new, and nextReviewAt = startOfDay(introductionDate) — reviewable on the
introduction day itself; in particular with an empty progress list every
entry is at stage 0/new with nextReviewAt = startOfDay(introductionDate). -/
theorem mergeWithProgress_spec :
    (∀ (words : List (RawWord × String)) (progress : List WordProgress)
       (wd : RawWord × String) (e : WordEntry),
       (wd, e) ∈ words.zip (WordLoaderService.mergeWithProgress words progress) →
       (∀ p, WordLoaderService.findProgress progress (generateWordId wd.2 wd.1.word) = some p →
          e.reviewStage = p.reviewStage ∧ e.nextReviewAt = p.nextReviewAt ∧
            e.memoryStatus = p.memoryStatus ∧ e.lastReviewedAt = p.lastReviewedAt) ∧
       (WordLoaderService.findProgress progress (generateWordId wd.2 wd.1.word) = none →
          e.reviewStage = 0 ∧ e.memoryStatus = .new ∧
            e.nextReviewAt = getStartOfDay (parseDateString wd.2))) ∧
    (∀ (words : List (RawWord × String)) (wd : RawWord × String) (e : WordEntry),
       (wd, e) ∈ words.zip (WordLoaderService.mergeWithProgress words []) →
       e.reviewStage = 0 ∧ e.memoryStatus = .new ∧
         e.nextReviewAt = getStartOfDay (parseDateString wd.2)) := by
  have main : ∀ (words : List (RawWord × String)) (progress : List WordProgress)
      (wd : RawWord × String) (e : WordEntry),
      (wd, e) ∈ words.zip (WordLoaderService.mergeWithProgress words progress) →
      (∀ p, WordLoaderService.findProgress progress (generateWordId wd.2 wd.1.word) = some p →
         e.reviewStage = p.reviewStage ∧ e.nextReviewAt = p.nextReviewAt ∧
           e.memoryStatus = p.memoryStatus ∧ e.lastReviewedAt = p.lastReviewedAt) ∧
      (WordLoaderService.findProgress progress (generateWordId wd.2 wd.1.word) = none →
         e.reviewStage = 0 ∧ e.memoryStatus = .new ∧
           e.nextReviewAt = getStartOfDay (parseDateString wd.2)) := by
    intro words progress wd e hmem
    unfold WordLoaderService.mergeWithProgress at hmem
    have he := mem_zip_map _ words wd e hmem
    constructor
    · intro p hp
      simp only [he, hp]
      exact ⟨trivial, trivial, trivial, trivial⟩
    · intro hp
      simp only [he, hp, WordLoaderService.createWordEntry,
        SchedulerService.calculateInitialReview]
      exact ⟨trivial, trivial, trivial⟩
  exact ⟨main, fun words wd e hmem => (main words [] wd e hmem).2 rfl⟩

/-- Witness for claim C4: a one-word catalog merged with an empty
progress list seeds the entry at stage 0, status new, first review at the
start of its introduction day. -/
theorem mergeWithProgress_spec_witness :
    (WordLoaderService.createWordEntry ⟨"apple", "fruit", none⟩ "2026-01-10").reviewStage = 0 ∧
    (WordLoaderService.createWordEntry ⟨"apple", "fruit", none⟩ "2026-01-10").memoryStatus = .new ∧
    (WordLoaderService.createWordEntry ⟨"apple", "fruit", none⟩ "2026-01-10").nextReviewAt =
      getStartOfDay (parseDateString "2026-01-10") :=
  mergeWithProgress_spec.2 [(⟨"apple", "fruit", none⟩, "2026-01-10")]
    (⟨"apple", "fruit", none⟩, "2026-01-10")
    (WordLoaderService.createWordEntry ⟨"apple", "fruit", none⟩ "2026-01-10")
    (by decide)

/-- The urgency comparator is non-positive exactly for the lexicographic
order: strictly smaller urgency class, or same class and no later
`nextReviewAt`. -/
theorem urgencyCmp_nonpos_iff (now : Int) (a b : WordEntry) :
    SchedulerService.urgencyCmp now a b ≤ 0 ↔
      (SchedulerService.getPriority (getStartOfDay now) (getEndOfDay now) a <
         SchedulerService.getPriority (getStartOfDay now) (getEndOfDay now) b ∨
       (SchedulerService.getPriority (getStartOfDay now) (getEndOfDay now) a =
          SchedulerService.getPriority (getStartOfDay now) (getEndOfDay now) b ∧
        a.nextReviewAt ≤ b.nextReviewAt)) := by
  simp only [SchedulerService.urgencyCmp]
  split_ifs with h <;> omega

/-- Totality of the boolean order the urgency sort uses. -/
theorem urgencyLe_total (now : Int) (a b : WordEntry) :
    (decide (SchedulerService.urgencyCmp now a b ≤ 0) ||
      decide (SchedulerService.urgencyCmp now b a ≤ 0)) = true := by
  simp only [Bool.or_eq_true, decide_eq_true_eq, urgencyCmp_nonpos_iff]
  omega

/-- Transitivity of the boolean order the urgency sort uses. -/
theorem urgencyLe_trans (now : Int) (a b c : WordEntry) :
    decide (SchedulerService.urgencyCmp now a b ≤ 0) = true →
    decide (SchedulerService.urgencyCmp now b c ≤ 0) = true →
    decide (SchedulerService.urgencyCmp now a c ≤ 0) = true := by
  simp only [decide_eq_true_eq, urgencyCmp_nonpos_iff]
  omega

/-- Unfolding of `mergeSort` on a two-element list. -/
theorem mergeSort_pair {α : Type} (le : α → α → Bool) (a b : α) :
    [a, b].mergeSort le = if le a b then [a, b] else [b, a] := by
  rw [List.mergeSort]
  simp [List.splitInTwo, List.splitAt, List.splitAt.go, List.merge]

/-- Unfolding of `mergeSort` on a three-element list. -/
theorem mergeSort_triple {α : Type} (le : α → α → Bool) (a b c : α) :
    [a, b, c].mergeSort le = ([a, b].mergeSort le).merge [c] le := by
  rw [List.mergeSort]
  simp [List.splitInTwo, List.splitAt, List.splitAt.go]

/-- Claim C6: relative to the base instant now, every entry is in exactly
one urgency class — Overdue (nextReviewAt < startOfToday), DueToday
(startOfToday ≤ nextReviewAt ≤ endOfToday), Future (nextReviewAt >
endOfToday) — and sortByUrgency orders its output by class (Overdue <
DueToday < Future) and by nextReviewAt ascending within a class, stably:
entries the comparator ties keep their original relative order. -/
theorem sortByUrgency_ordering (now : Int) (words : List WordEntry) :
    (∀ w : WordEntry,
       (SchedulerService.getPriority (getStartOfDay now) (getEndOfDay now) w = 0 ↔
          w.nextReviewAt < getStartOfDay now) ∧
       (SchedulerService.getPriority (getStartOfDay now) (getEndOfDay now) w = 1 ↔
          (getStartOfDay now ≤ w.nextReviewAt ∧ w.nextReviewAt ≤ getEndOfDay now)) ∧
       (SchedulerService.getPriority (getStartOfDay now) (getEndOfDay now) w = 2 ↔
          getEndOfDay now < w.nextReviewAt)) ∧
    (SchedulerService.sortByUrgency now words).Pairwise (fun a b =>
       SchedulerService.getPriority (getStartOfDay now) (getEndOfDay now) a <
         SchedulerService.getPriority (getStartOfDay now) (getEndOfDay now) b ∨
       (SchedulerService.getPriority (getStartOfDay now) (getEndOfDay now) a =
          SchedulerService.getPriority (getStartOfDay now) (getEndOfDay now) b ∧
        a.nextReviewAt ≤ b.nextReviewAt)) ∧
    (∀ a b : WordEntry, [a, b].Sublist words → SchedulerService.urgencyCmp now a b = 0 →
       [a, b].Sublist (SchedulerService.sortByUrgency now words)) := by
  refine ⟨?_, ?_, ?_⟩
  · intro w
    refine ⟨?_, ?_, ?_⟩ <;>
      (simp only [SchedulerService.getPriority, getEndOfDay, DAY_MS]
       split_ifs <;> simp <;> omega)
  · have hs := @List.sorted_mergeSort WordEntry
      (fun a b => decide (SchedulerService.urgencyCmp now a b ≤ 0))
      (fun a b c hab hbc => urgencyLe_trans now a b c hab hbc)
      (fun a b => urgencyLe_total now a b) words
    exact hs.imp (fun {a b} h => (urgencyCmp_nonpos_iff now a b).mp (of_decide_eq_true h))
  · intro a b hsub hcmp
    have hab : decide (SchedulerService.urgencyCmp now a b ≤ 0) = true := by
      rw [decide_eq_true_eq, hcmp]
    exact List.pair_sublist_mergeSort
      (fun a b c hab hbc => urgencyLe_trans now a b c hab hbc)
      (fun a b => urgencyLe_total now a b) hab hsub

/-- Witness for claim C6: entries due yesterday, today and tomorrow,
submitted in the order [tomorrow, yesterday, today] on day 10 at 02:00,
come out as [yesterday, today, tomorrow]; and two comparator-tied entries
keep their original relative order. -/
theorem sortByUrgency_ordering_witness :
    SchedulerService.sortByUrgency 871200000 [wTomorrow, wYesterday, wToday] =
      [wYesterday, wToday, wTomorrow] ∧
    [wTieOne, wTieTwo].Sublist
      (SchedulerService.sortByUrgency 871200000 [wTomorrow, wTieOne, wTieTwo]) := by
  constructor
  · show List.mergeSort _ _ = _
    rw [mergeSort_triple, mergeSort_pair]
    have h1 : decide (SchedulerService.urgencyCmp 871200000 wTomorrow wYesterday ≤ 0) = false := by
      decide
    have h2 : decide (SchedulerService.urgencyCmp 871200000 wYesterday wToday ≤ 0) = true := by
      decide
    have h3 : decide (SchedulerService.urgencyCmp 871200000 wTomorrow wToday ≤ 0) = false := by
      decide
    simp [List.cons_merge_cons, h1, h2, h3]
  · exact (sortByUrgency_ordering 871200000 [wTomorrow, wTieOne, wTieTwo]).2.2
      wTieOne wTieTwo (List.Sublist.cons wTomorrow (List.Sublist.refl [wTieOne, wTieTwo]))
      (by decide)

/-- Claim C10: sortByUrgency returns a permutation of its input — no entry
added, dropped or modified, mastered entries included, so neither sorting
nor startReview performs mastered-exclusion or due-filtering — and the
session queue built by startReview is exactly that permutation (the input
list itself is untouched: the source sorts a copy `[...words]`, and the
embedding is pure). -/
theorem sortByUrgency_perm (now : Int) (words : List WordEntry) (st : ProgressStoreState) :
    (SchedulerService.sortByUrgency now words).Perm words ∧
    ((ProgressStore.startReview st now words).reviewQueue).Perm words :=
  ⟨List.mergeSort_perm words _, List.mergeSort_perm words _⟩

/-- Claim C7: on a graded review, the streak update increments streakDays
by exactly 1 if and only if the new study date is the calendar day
immediately after lastStudyDate (their midnight timestamps differ by one
day); it resets to 1 on first-ever study (empty lastStudyDate) and on any
other whole-day gap; and a repeated review on the same day leaves both
streakDays and lastStudyDate unchanged. -/
theorem updateStreakDays_spec (streakDays : Int) (lastStudyDate today : String) :
    (lastStudyDate = "" →
       ProgressStore.updateStreakDays streakDays lastStudyDate today = (1, today)) ∧
    (lastStudyDate ≠ "" → lastStudyDate = today →
       ProgressStore.updateStreakDays streakDays lastStudyDate today =
         (streakDays, lastStudyDate)) ∧
    (lastStudyDate ≠ "" → lastStudyDate ≠ today →
       parseDateString today = parseDateString lastStudyDate + DAY_MS →
       ProgressStore.updateStreakDays streakDays lastStudyDate today =
         (streakDays + 1, today)) ∧
    (∀ k : Int, lastStudyDate ≠ "" → lastStudyDate ≠ today →
       parseDateString today - parseDateString lastStudyDate = k * DAY_MS → k ≠ 1 →
       ProgressStore.updateStreakDays streakDays lastStudyDate today = (1, today)) := by
  refine ⟨?_, ?_, ?_, ?_⟩
  · intro h
    simp [ProgressStore.updateStreakDays, h]
  · intro h0 h
    subst h
    simp [ProgressStore.updateStreakDays, h0]
  · intro h0 ht hd
    have hdiff : Int.fdiv (parseDateString today - parseDateString lastStudyDate) DAY_MS = 1 := by
      rw [hd]
      have : parseDateString lastStudyDate + DAY_MS - parseDateString lastStudyDate = DAY_MS := by
        ring
      rw [this]
      decide
    simp [ProgressStore.updateStreakDays, h0, ht, hdiff]
  · intro k h0 ht hd hk
    have hdiff : Int.fdiv (parseDateString today - parseDateString lastStudyDate) DAY_MS = k := by
      rw [hd]
      exact Int.mul_fdiv_cancel k (by decide)
    simp [ProgressStore.updateStreakDays, h0, ht, hdiff, hk]

/-- Witness for claim C7: first-ever study seeds the streak; a same-day
repeat is a no-op; day 2026-01-10 followed by 2026-01-11 increments 1→2;
2026-01-10 followed by 2026-01-12 resets to 1. -/
theorem updateStreakDays_spec_witness :
    ProgressStore.updateStreakDays 5 "" "2026-01-10" = (1, "2026-01-10") ∧
    ProgressStore.updateStreakDays 5 "2026-01-10" "2026-01-10" = (5, "2026-01-10") ∧
    ProgressStore.updateStreakDays 1 "2026-01-10" "2026-01-11" = (2, "2026-01-11") ∧
    ProgressStore.updateStreakDays 5 "2026-01-10" "2026-01-12" = (1, "2026-01-12") := by
  refine ⟨?_, ?_, ?_, ?_⟩
  · exact (updateStreakDays_spec 5 "" "2026-01-10").1 rfl
  · exact (updateStreakDays_spec 5 "2026-01-10" "2026-01-10").2.1 (by decide) rfl
  · exact ((updateStreakDays_spec 1 "2026-01-10" "2026-01-11").2.2.1
      (by decide) (by decide) (by decide)).trans (by decide)
  · exact (updateStreakDays_spec 5 "2026-01-10" "2026-01-12").2.2.2 2
      (by decide) (by decide) (by decide) (by decide)

/-- Claim C9: when the session cursor is out of range — the queue is empty
or the cursor is at or beyond the queue length — both grading operations
return null and leave the whole store state (queue, cursor, progress list
and stats) exactly as it was. -/
theorem grading_out_of_range_noop (st : ProgressStoreState) (now : Int) (today : String)
    (h : st.reviewQueue = [] ∨ st.reviewQueue.length ≤ st.currentReviewIndex) :
    ProgressStore.handleRemember st now today = (none, st) ∧
    ProgressStore.handleForget st now today = (none, st) := by
  have hcw : ProgressStore.currentWord st = none := by
    unfold ProgressStore.currentWord
    rcases h with h | h
    · simp [h]
    · rcases Nat.eq_zero_or_pos st.reviewQueue.length with h0 | h0
      · simp [h0]
      · rw [if_neg (by omega), if_pos h]
  constructor
  · unfold ProgressStore.handleRemember
    rw [hcw]
  · unfold ProgressStore.handleForget
    rw [hcw]

/-- Witness for claim C9: grading an empty session is a no-op. -/
theorem grading_out_of_range_noop_witness :
    ProgressStore.handleRemember ⟨[], 0, "", [], [], 0, 0⟩ 871200000 "2026-01-10" =
      (none, ⟨[], 0, "", [], [], 0, 0⟩) ∧
    ProgressStore.handleForget ⟨[], 0, "", [], [], 0, 0⟩ 871200000 "2026-01-10" =
      (none, ⟨[], 0, "", [], [], 0, 0⟩) :=
  grading_out_of_range_noop ⟨[], 0, "", [], [], 0, 0⟩ 871200000 "2026-01-10" (Or.inl rfl)

/-- Claim C1: grading forget on the current entry appends the refreshed
copy of that entry — carrying its updated stage and nextReviewAt from the
forget transition — to the tail of the live queue and advances the cursor
by 1, so the queue grows by exactly one per forget; the cursor never moves
to an earlier index under either grading action; and a session started
with queue [A, B], graded forget on A and B, has queue length 4, is not
complete after 2 or 3 gradings, never revisits index 0 or 1, and is
complete exactly after the 4th grading. -/
theorem forget_appends_and_advances :
    (∀ (st : ProgressStoreState) (now : Int) (today : String) (w : WordEntry),
       ProgressStore.currentWord st = some w →
       (ProgressStore.handleForget st now today).1 =
         some (SchedulerService.handleForget w now) ∧
       (ProgressStore.handleForget st now today).2.reviewQueue =
         st.reviewQueue ++
           [ProgressStore.refreshedWordEntry w (SchedulerService.handleForget w now)] ∧
       (ProgressStore.handleForget st now today).2.reviewQueue.length =
         st.reviewQueue.length + 1 ∧
       (ProgressStore.handleForget st now today).2.currentReviewIndex =
         st.currentReviewIndex + 1) ∧
    (∀ (st : ProgressStoreState) (now : Int) (today : String),
       st.currentReviewIndex ≤ (ProgressStore.handleForget st now today).2.currentReviewIndex ∧
       st.currentReviewIndex ≤
         (ProgressStore.handleRemember st now today).2.currentReviewIndex) ∧
    (sessionS2.reviewQueue.length = 4 ∧
     sessionS1.currentReviewIndex = 1 ∧ sessionS2.currentReviewIndex = 2 ∧
     sessionS3.currentReviewIndex = 3 ∧ sessionS4.currentReviewIndex = 4 ∧
     ProgressStore.isReviewComplete sessionS1 = false ∧
     ProgressStore.isReviewComplete sessionS2 = false ∧
     ProgressStore.isReviewComplete sessionS3 = false ∧
     ProgressStore.isReviewComplete sessionS4 = true) := by
  have hmain : ∀ (st : ProgressStoreState) (now : Int) (today : String) (w : WordEntry),
      ProgressStore.currentWord st = some w →
      (ProgressStore.handleForget st now today).1 =
        some (SchedulerService.handleForget w now) ∧
      (ProgressStore.handleForget st now today).2.reviewQueue =
        st.reviewQueue ++
          [ProgressStore.refreshedWordEntry w (SchedulerService.handleForget w now)] ∧
      (ProgressStore.handleForget st now today).2.reviewQueue.length =
        st.reviewQueue.length + 1 ∧
      (ProgressStore.handleForget st now today).2.currentReviewIndex =
        st.currentReviewIndex + 1 := by
    intro st now today w hcw
    unfold ProgressStore.handleForget
    rw [hcw]
    refine ⟨rfl, ?_, ?_, rfl⟩
    · simp [ProgressStore.updateStats]
    · simp [ProgressStore.updateStats]
  refine ⟨hmain, ?_, ?_⟩
  · intro st now today
    constructor
    · rcases hcw : ProgressStore.currentWord st with _ | w
      · unfold ProgressStore.handleForget
        rw [hcw]
      · exact le_of_lt (by rw [(hmain st now today w hcw).2.2.2]; omega)
    · rcases hcw : ProgressStore.currentWord st with _ | w
      · unfold ProgressStore.handleRemember
        rw [hcw]
      · unfold ProgressStore.handleRemember
        rw [hcw]
        simp [ProgressStore.updateStats]
  · have hsort : SchedulerService.sortByUrgency 871200000 [wForgetA, wForgetB] =
        [wForgetA, wForgetB] := by
      show List.mergeSort _ _ = _
      rw [mergeSort_pair]
      have h : decide (SchedulerService.urgencyCmp 871200000 wForgetA wForgetB ≤ 0) = true := by
        decide
      simp [h]
    have h0 : sessionS0 =
        ⟨[], 0, "", [], [wForgetA, wForgetB], 0, 0⟩ := by
      unfold sessionS0 ProgressStore.startReview
      rw [hsort]
    simp only [sessionS4, sessionS3, sessionS2, sessionS1, h0]
    decide

/-- Witness for claim C1: one forget on a two-entry queue returns the
reset progress record, appends the refreshed copy at the tail, and
advances the cursor from 0 to 1. -/
theorem forget_appends_and_advances_witness :
    (ProgressStore.handleForget ⟨[], 0, "", [], [wForgetA, wForgetB], 0, 0⟩
        871200000 "2026-01-10").1 =
      some (SchedulerService.handleForget wForgetA 871200000) ∧
    (ProgressStore.handleForget ⟨[], 0, "", [], [wForgetA, wForgetB], 0, 0⟩
        871200000 "2026-01-10").2.reviewQueue =
      [wForgetA, wForgetB] ++
        [ProgressStore.refreshedWordEntry wForgetA
          (SchedulerService.handleForget wForgetA 871200000)] ∧
    (ProgressStore.handleForget ⟨[], 0, "", [], [wForgetA, wForgetB], 0, 0⟩
        871200000 "2026-01-10").2.reviewQueue.length = 2 + 1 ∧
    (ProgressStore.handleForget ⟨[], 0, "", [], [wForgetA, wForgetB], 0, 0⟩
        871200000 "2026-01-10").2.currentReviewIndex = 0 + 1 :=
  forget_appends_and_advances.1 ⟨[], 0, "", [], [wForgetA, wForgetB], 0, 0⟩
    871200000 "2026-01-10" wForgetA (by decide)

/-- load inversion: a loaded snapshot is exactly the stored value and
passes the code's validation. -/
theorem load_some_inv (stored : Option Json) (d : Json)
    (h : ProgressService.load stored = some d) :
    stored = some d ∧ isValidProgressData d = true := by
  match stored with
  | none => exact absurd h (by simp [ProgressService.load])
  | some data =>
      simp only [ProgressService.load] at h
      by_cases hv : isValidProgressData data
      · rw [if_pos hv] at h
        obtain rfl := Option.some.inj h
        exact ⟨rfl, hv⟩
      · rw [if_neg hv] at h
        exact absurd h (by simp)

/-- Counterexample to claim C5 as stated: a stored snapshot whose progress
array holds the bare number 42 — a structural mismatch inside the snapshot
— is returned by load as-is rather than treated as absent, because the
code's validation does not recurse into the progress elements. -/
theorem load_shallow_validation_counterexample :
    ProgressService.load (some cexSnapshot) = some cexSnapshot ∧
    schemaValidSnapshot cexSnapshot = false :=
  ⟨rfl, rfl⟩

/-- Claim C5 amended: load returns either the stored value — never a
coerced or partially populated object — with the top-level structure
validated (numeric version, array progress, stats with numeric
streakDays, string lastStudyDate and object dailyReviews, object
settings), or absent; any top-level mismatch, in particular a snapshot
missing stats.dailyReviews, loads as absent.  (Mismatches strictly inside
the progress elements, dailyReviews values or settings fields are not
detected; see the counterexample.) -/
theorem load_fail_closed_shallow :
    (∀ (stored : Option Json) (d : Json), ProgressService.load stored = some d →
       stored = some d ∧ isValidProgressData d = true) ∧
    ProgressService.load none = none ∧
    (∀ d : Json, isValidProgressData d = false → ProgressService.load (some d) = none) ∧
    (∀ (d stats : Json), d.getField "stats" = some stats →
       stats.getField "dailyReviews" = none →
       ProgressService.load (some d) = none) := by
  refine ⟨load_some_inv, rfl, ?_, ?_⟩
  · intro d h
    simp [ProgressService.load, h]
  · intro d stats hs hdr
    have hv : isValidProgressData d = false := by
      simp only [isValidProgressData]
      split_ifs with h1 h2 h3 h4 h5 h6 h7 h8
      any_goals rfl
      exfalso
      rw [hs, Option.getD_some, hdr] at h7
      exact absurd h7 (by decide)
    simp [ProgressService.load, hv]

/-- Witness for the amended claim C5: a snapshot whose stats object lacks
dailyReviews loads as absent. -/
theorem load_fail_closed_shallow_witness :
    ProgressService.load (some (.obj
      [("version", .num 1), ("progress", .arr []),
       ("stats", .obj [("streakDays", .num 0), ("lastStudyDate", .str "")]),
       ("settings", .obj [])])) = none :=
  load_fail_closed_shallow.2.2.2
    (.obj [("version", .num 1), ("progress", .arr []),
           ("stats", .obj [("streakDays", .num 0), ("lastStudyDate", .str "")]),
           ("settings", .obj [])])
    (.obj [("streakDays", .num 0), ("lastStudyDate", .str "")]) rfl rfl

/-- Updating the value under one key leaves lookups of every other key
unchanged. -/
theorem foldl_lookup_map_set (k k' : String) (v : Json) (h : k' ≠ k) :
    ∀ (l : List (String × Json)) (acc : Option Json),
      (l.map (fun f => if f.1 = k then (f.1, v) else f)).foldl
          (fun acc f => if f.1 = k' then some f.2 else acc) acc =
        l.foldl (fun acc f => if f.1 = k' then some f.2 else acc) acc := by
  intro l
  induction l with
  | nil => intro acc; rfl
  | cons f rest ih =>
      intro acc
      simp only [List.map_cons, List.foldl_cons]
      rw [ih]
      congr 1
      by_cases hf : f.1 = k
      · simp [hf, Ne.symm h]
      · simp [hf]

/-- Appending a pair under a fresh key leaves lookups of every other key
unchanged. -/
theorem foldl_lookup_append_ne (k k' : String) (v : Json) (h : k' ≠ k)
    (l : List (String × Json)) (acc : Option Json) :
    (l ++ [(k, v)]).foldl (fun acc f => if f.1 = k' then some f.2 else acc) acc =
      l.foldl (fun acc f => if f.1 = k' then some f.2 else acc) acc := by
  rw [List.foldl_append]
  simp [Ne.symm h]

/-- Removing the pairs under one key leaves lookups of every other key
unchanged. -/
theorem foldl_lookup_filter_ne (k k' : String) (h : k' ≠ k) :
    ∀ (l : List (String × Json)) (acc : Option Json),
      (l.filter (fun f => ¬ f.1 = k)).foldl
          (fun acc f => if f.1 = k' then some f.2 else acc) acc =
        l.foldl (fun acc f => if f.1 = k' then some f.2 else acc) acc := by
  intro l
  induction l with
  | nil => intro acc; rfl
  | cons f rest ih =>
      intro acc
      simp only [decide_not] at ih
      by_cases hf : f.1 = k
      · simp [List.filter_cons, hf, Ne.symm h, ih]
      · simp [List.filter_cons, hf, ih]

/-- `setField` does not change `getField` at other keys. -/
theorem getField_setField_ne (fields : List (String × Json)) (k k' : String) (v : Json)
    (h : k' ≠ k) :
    (Json.setField (.obj fields) k v).getField k' = (Json.obj fields).getField k' := by
  simp only [Json.setField]
  split_ifs with hany
  · simp only [Json.getField]
    exact foldl_lookup_map_set k k' v h fields none
  · simp only [Json.getField]
    exact foldl_lookup_append_ne k k' v h fields none

/-- `deleteField` does not change `getField` at other keys. -/
theorem getField_deleteField_ne (fields : List (String × Json)) (k k' : String)
    (h : k' ≠ k) :
    (Json.deleteField (.obj fields) k).getField k' = (Json.obj fields).getField k' := by
  simp only [Json.deleteField, Json.getField]
  exact foldl_lookup_filter_ne k k' h fields none

/-- `setField` keeps an object an object. -/
theorem setField_obj (fields : List (String × Json)) (k : String) (v : Json) :
    ∃ fields', Json.setField (.obj fields) k v = .obj fields' := by
  simp only [Json.setField]
  split_ifs <;> exact ⟨_, rfl⟩

/-- The code's validation only inspects the top-level object shape and the
four top-level fields, so it transfers along field-wise equal objects. -/
theorem isValid_congr (d d' : Json)
    (hobj : d'.isTruthyObject = d.isTruthyObject)
    (hv : d'.getField "version" = d.getField "version")
    (hp : d'.getField "progress" = d.getField "progress")
    (hs : d'.getField "stats" = d.getField "stats")
    (hset : d'.getField "settings" = d.getField "settings") :
    isValidProgressData d' = isValidProgressData d := by
  simp only [isValidProgressData, hobj, hv, hp, hs, hset]

/-- A snapshot that passes the code's validation is a JSON object. -/
theorem isValid_obj (d : Json) (h : isValidProgressData d = true) :
    ∃ fields, d = .obj fields := by
  match d with
  | .obj fields => exact ⟨fields, rfl⟩
  | .null => simp [isValidProgressData, Json.isTruthyObject] at h
  | .bool b => simp [isValidProgressData, Json.isTruthyObject] at h
  | .num n => simp [isValidProgressData, Json.isTruthyObject] at h
  | .str s => simp [isValidProgressData, Json.isTruthyObject] at h
  | .arr items =>
      simp [isValidProgressData, Json.isTruthyObject, Json.getField, jsIsNumber] at h

/-- Spreading the export metadata onto an object snapshot and deleting it
again yields an object that agrees with the original on every other key. -/
theorem strip_export_fields (fields : List (String × Json)) (now : Int) :
    ∃ fields',
      ((((Json.obj fields).setField "exportedAt" (Json.num now)).setField "exportVersion"
          (Json.num 1)).deleteField "exportedAt").deleteField "exportVersion" =
        Json.obj fields' ∧
      ∀ K : String, K ≠ "exportedAt" → K ≠ "exportVersion" →
        (Json.obj fields').getField K = (Json.obj fields).getField K := by
  obtain ⟨f1, hf1⟩ := setField_obj fields "exportedAt" (Json.num now)
  obtain ⟨f2, hf2⟩ := setField_obj f1 "exportVersion" (Json.num 1)
  refine ⟨(f2.filter (fun f => ¬ f.1 = "exportedAt")).filter
      (fun f => ¬ f.1 = "exportVersion"), ?_, ?_⟩
  · rw [hf1, hf2]
    rfl
  · intro K h1 h2
    have e1 : Json.obj ((f2.filter (fun f => ¬ f.1 = "exportedAt")).filter
        (fun f => ¬ f.1 = "exportVersion")) =
        Json.deleteField (Json.obj (f2.filter (fun f => ¬ f.1 = "exportedAt")))
          "exportVersion" := rfl
    have e2 : Json.obj (f2.filter (fun f => ¬ f.1 = "exportedAt")) =
        Json.deleteField (Json.obj f2) "exportedAt" := rfl
    rw [e1, getField_deleteField_ne _ _ _ h2, e2, getField_deleteField_ne _ _ _ h1,
      ← hf2, getField_setField_ne _ _ _ _ h2, ← hf1, getField_setField_ne _ _ _ _ h1]

/-- Claim C8: for every valid stored snapshot, exportData followed by
importData of the exported value succeeds and commits a snapshot whose
progress list and stats are identical to the original, with the
transport-only metadata (exportedAt, exportVersion) stripped before
re-validation and commit; and on invalid import input nothing is saved —
the stored state is returned untouched with a failure flag. -/
theorem export_import_roundtrip :
    (∀ (stored : Option Json) (d : Json) (now : Int),
       ProgressService.load stored = some d →
       ∃ ex d', ProgressService.exportData stored now = some ex ∧
         ProgressService.importData stored (some ex) = (some d', true) ∧
         d'.getField "progress" = d.getField "progress" ∧
         d'.getField "stats" = d.getField "stats" ∧
         isValidProgressData d' = true) ∧
    (∀ (stored input : Option Json),
       (∀ parsed, input = some parsed →
          isValidProgressData
            ((parsed.deleteField "exportedAt").deleteField "exportVersion") = false) →
       ProgressService.importData stored input = (stored, false)) := by
  constructor
  · intro stored d now hload
    obtain ⟨hstored, hvalid⟩ := load_some_inv stored d hload
    obtain ⟨fields, rfl⟩ := isValid_obj d hvalid
    obtain ⟨fields', hstrip, hget⟩ := strip_export_fields fields now
    have hv' : isValidProgressData (Json.obj fields') =
        isValidProgressData (Json.obj fields) :=
      isValid_congr _ _ rfl
        (hget "version" (by decide) (by decide))
        (hget "progress" (by decide) (by decide))
        (hget "stats" (by decide) (by decide))
        (hget "settings" (by decide) (by decide))
    refine ⟨((Json.obj fields).setField "exportedAt" (Json.num now)).setField "exportVersion"
      (Json.num 1), Json.obj fields', ?_, ?_, ?_, ?_, ?_⟩
    · unfold ProgressService.exportData
      rw [hload]
    · simp only [ProgressService.importData]
      rw [hstrip, hv', hvalid]
      simp
    · exact hget "progress" (by decide) (by decide)
    · exact hget "stats" (by decide) (by decide)
    · exact hv'.trans hvalid
  · intro stored input h
    match input with
    | none => rfl
    | some parsed =>
        have hv := h parsed rfl
        simp only [ProgressService.importData]
        rw [hv]
        simp

/-- Witness for claim C8: the round trip on a concrete valid snapshot
succeeds, and the re-committed snapshot carries the original progress and
stats; importing a bare number leaves the stored state untouched. -/
theorem export_import_roundtrip_witness :
    (ProgressService.exportData (some vSnap) 999).isSome = true ∧
    (ProgressService.importData (some vSnap)
        (ProgressService.exportData (some vSnap) 999)).2 = true ∧
    (ProgressService.importData (some vSnap)
        (ProgressService.exportData (some vSnap) 999)).1.map
        (fun j => j.getField "progress") = some (vSnap.getField "progress") ∧
    (ProgressService.importData (some vSnap)
        (ProgressService.exportData (some vSnap) 999)).1.map
        (fun j => j.getField "stats") = some (vSnap.getField "stats") ∧
    ProgressService.importData (some vSnap) (some (.num 3)) = (some vSnap, false) := by
  obtain ⟨ex, d', h1, h2, h3, h4, h5⟩ :=
    export_import_roundtrip.1 (some vSnap) vSnap 999 rfl
  rw [h1, h2]
  refine ⟨rfl, rfl, ?_, ?_, ?_⟩
  · simp [h3]
  · simp [h4]
  · exact export_import_roundtrip.2 (some vSnap) (some (.num 3))
      (fun parsed hp => by obtain rfl := Option.some.inj hp; rfl)

end Ebbinghaus
